import Mathlib

set_option maxHeartbeats 1000000

/-!
Shallow embedding of the Skin-cancer-Analyzer repository.

The embedding covers:
* `fix_model.py` — the one-shot model repair utility
  (`rebuild_model_with_weights`, `test_model`, `main`);
* `app.py` — the dashboard helpers (`LESION_TYPE_DICT`, `preprocess_image`,
  `predict_skin_lesion`, `format_prediction_results`);
* the classifier-service simulated path, which the spec describes but whose
  source file is not among the provided sources (modelled from the spec).

Numeric arrays are modelled over `ℚ`; numpy tensors are a shape together with
row-major flat data.  Python exceptions that escape a function are modelled by
`Except Unit`; the caught `ValueError` of the 4-D injection branch is modelled
by the boolean result of `setWeightsOk`.
-/

/- ------------------------------------------------------------------ -/
/-! ### String helpers: Python `needle in haystack.lower()` -/

/-- `chStarts n h` is true when the character list `n` is an initial segment
of `h` (helper for the Python substring test). -/
def chStarts : List Char → List Char → Bool
  | [], _ => true
  | _ :: _, [] => false
  | a :: as, b :: bs => a == b && chStarts as bs

/-- `chContains n h` is true when the character list `n` occurs contiguously
somewhere inside `h`. -/
def chContains (needle : List Char) : List Char → Bool
  | [] => needle.isEmpty
  | b :: bs => chStarts needle (b :: bs) || chContains needle bs

/-- Python's `needle in hay` on strings: contiguous substring occurrence. -/
def strOccursIn (needle hay : String) : Bool :=
  chContains needle.toList hay.toList

/-- Python's `s.lower()` restricted to the character-wise case mapping. -/
def strLower (s : String) : String :=
  ⟨s.data.map Char.toLower⟩

/- ------------------------------------------------------------------ -/
/-! ### Tensors: numpy arrays as shape + row-major flat data -/

/-- A numpy array: its shape and its row-major flattened data.
Weights extracted from the HDF5 file are values of this type. -/
structure Tensor where
  shape : List ℕ
  data : List ℚ
deriving DecidableEq, Repr

/-- `ndim` of a numpy array: the number of axes. -/
def Tensor.ndim (t : Tensor) : ℕ := t.shape.length

/-- Row-major flat offset of a multi-index inside a shape
(numpy indexing arithmetic). -/
def flatIdx : List ℕ → List ℕ → ℕ
  | _ :: ds, i :: is => i * ds.prod + flatIdx ds is
  | _, _ => 0

/-- Element of a tensor at a multi-index (default `0` out of range). -/
def Tensor.get (t : Tensor) (idx : List ℕ) : ℚ :=
  t.data.getD (flatIdx t.shape idx) 0

/-- Numpy basic indexing `a[i]` on the leading axis of a row-major array:
drops the first axis and keeps the `i`-th block of the flat data. -/
def npIndex0 (t : Tensor) (i : ℕ) : Tensor :=
  { shape := t.shape.tail
    data := (t.data.drop (i * t.shape.tail.prod)).take t.shape.tail.prod }

/-- `fix_model.py` line 95: `converted = raw_weights[1, :, :, :, :]` —
the Conv3D→Conv2D conversion selects the slice at depth index 1. -/
def conv3dTo2d (t : Tensor) : Tensor := npIndex0 t 1

/- ------------------------------------------------------------------ -/
/-! ### The reconstructed architecture (`fix_model.py` lines 42–63) -/

/-- The kind of a Keras layer used in the reconstructed `Sequential` model. -/
inductive LayerKind where
  | conv2D (filters kernelH kernelW : ℕ) (activation padding : String)
  | maxPooling2D (poolH poolW : ℕ)
  | flatten
  | dense (units : ℕ) (activation : String)
  | dropout (rate : ℚ)
deriving DecidableEq, Repr

/-- A layer of the reconstructed model: its Keras name, its kind, and the
list of weight-array shapes its `set_weights` expects (kernel and bias for
convolution/dense layers, nothing for pooling/flatten/dropout). -/
structure LayerSpec where
  name : String
  kind : LayerKind
  expectedShapes : List (List ℕ)
deriving DecidableEq, Repr

/-- Keras `layer.set_weights(ws)` succeeds exactly when the supplied arrays
match, in number and in shape, the layer's own weight arrays; otherwise it
raises `ValueError`. -/
def setWeightsOk (expected : List (List ℕ)) (ws : List Tensor) : Bool :=
  ws.map Tensor.shape == expected

/-- The architecture built by `rebuild_model_with_weights` (lines 42–63):
input 75×100×3, three `same`-padded 3×3 Conv2D + 2×2 MaxPooling pairs,
flatten, Dense 256 + Dropout 0.5, Dense 128 + Dropout 0.3, Dense 7 softmax.
Spatial sizes: 75×100 → 37×50 → 18×25 → 9×12, so the flatten width is
9·12·128 = 13824.  Each Conv2D/Dense layer has a kernel and a bias. -/
def modelLayers : List LayerSpec :=
  [ ⟨"conv2d_1", .conv2D 32 3 3 "relu" "same", [[3, 3, 3, 32], [32]]⟩,
    ⟨"max_pool_1", .maxPooling2D 2 2, []⟩,
    ⟨"conv2d_2", .conv2D 64 3 3 "relu" "same", [[3, 3, 32, 64], [64]]⟩,
    ⟨"max_pool_2", .maxPooling2D 2 2, []⟩,
    ⟨"conv2d_3", .conv2D 128 3 3 "relu" "same", [[3, 3, 64, 128], [128]]⟩,
    ⟨"max_pool_3", .maxPooling2D 2 2, []⟩,
    ⟨"flatten", .flatten, []⟩,
    ⟨"dense_1", .dense 256 "relu", [[13824, 256], [256]]⟩,
    ⟨"dropout_1", .dropout (1 / 2), []⟩,
    ⟨"dense_2", .dense 128 "relu", [[256, 128], [128]]⟩,
    ⟨"dropout_2", .dropout (3 / 10), []⟩,
    ⟨"output", .dense 7 "softmax", [[128, 7], [7]]⟩ ]

/- ------------------------------------------------------------------ -/
/-! ### Name-based weight matching (`fix_model.py` lines 69–118) -/

/-- The static `layer_mapping` table of legacy name fragments (lines 69–76). -/
def layer_mapping : List (String × List String) :=
  [ ("conv2d_1", ["conv3d", "conv3d_1", "conv3d_2"]),
    ("conv2d_2", ["conv3d_3", "conv3d_4"]),
    ("conv2d_3", ["conv3d_5", "conv3d_6"]),
    ("dense_1", ["dense", "dense_1", "dense_2"]),
    ("dense_2", ["dense_3", "dense_4"]),
    ("output", ["dense_5", "dense_6", "output"]) ]

/-- `layer_mapping.get(layer_name, [layer_name])` (line 85). -/
def candidatesFor (layerName : String) : List String :=
  (List.lookup layerName layer_mapping).getD [layerName]

/-- Per-layer outcome of the injection loop: either `set_weights` succeeded
with the given array list, or no weights were found and the layer keeps its
random initialization. -/
inductive Outcome where
  | injected (ws : List Tensor)
  | notFound
deriving DecidableEq, Repr

/-- The inner loop over `weights_dict.keys()` for one candidate name
(lines 87–110).  A key matches when the candidate occurs in the lowered key.
A 5-D match is converted and injected with no exception handler, so an
incompatible converted shape raises out of the whole function (`.error`).
A 4-D match is injected inside `try/except ValueError`, so an incompatible
shape moves on to the next key.  Other ranks (e.g. bias vectors) fall through
to the next key. -/
def tryKeys (expected : List (List ℕ)) (cand : String) :
    List (String × Tensor) → Except Unit (Option (List Tensor))
  | [] => .ok none
  | (k, t) :: rest =>
    if strOccursIn cand (strLower k) then
      if t.ndim = 5 then
        if setWeightsOk expected [conv3dTo2d t] then .ok (some [conv3dTo2d t])
        else .error ()
      else if t.ndim = 4 then
        if setWeightsOk expected [t] then .ok (some [t])
        else tryKeys expected cand rest
      else tryKeys expected cand rest
    else tryKeys expected cand rest

/-- The outer loop over `possible_name` candidates (lines 85–112): candidates
are tried in table order and the search stops as soon as one of them injects
(`found` / `break`). -/
def tryCandidates (expected : List (List ℕ)) :
    List String → List (String × Tensor) → Except Unit (Option (List Tensor))
  | [], _ => .ok none
  | c :: cs, entries =>
    match tryKeys expected c entries with
    | .error e => .error e
    | .ok (some ws) => .ok (some ws)
    | .ok none => tryCandidates expected cs entries

/-- The injection loop over `model.layers` (lines 78–117), returning each
layer's outcome and the `weights_injected` counter.  An exception escaping
the 5-D branch aborts the whole loop. -/
def rebuildModel (arch : List LayerSpec) (entries : List (String × Tensor)) :
    Except Unit (List (LayerSpec × Outcome) × ℕ) :=
  match arch with
  | [] => .ok ([], 0)
  | l :: rest =>
    match tryCandidates l.expectedShapes (candidatesFor l.name) entries with
    | .error e => .error e
    | .ok r =>
      match rebuildModel rest entries with
      | .error e => .error e
      | .ok (res, n) =>
        match r with
        | some ws => .ok ((l, Outcome.injected ws) :: res, n + 1)
        | none => .ok ((l, Outcome.notFound) :: res, n)

/-- `rebuild_model_with_weights(weights_dict)` (lines 36–118): builds the
fixed architecture and runs the injection loop over it.  The extracted
weights dictionary is modelled as an association list in insertion order. -/
def rebuild_model_with_weights (entries : List (String × Tensor)) :
    Except Unit (List (LayerSpec × Outcome) × ℕ) :=
  rebuildModel modelLayers entries

/-- Number of layers reported as successfully injected in a finished run. -/
def countInjected (res : List (LayerSpec × Outcome)) : ℕ :=
  res.countP fun p =>
    match p.2 with
    | Outcome.injected _ => true
    | Outcome.notFound => false

/- ------------------------------------------------------------------ -/
/-! ### `main` of `fix_model.py` (lines 135–171) -/

/-- The environment of one repair run: whether `./models/model.h5` exists,
what `extract_weights_from_corrupted_h5` returns (`none` models its
`except` path returning `None`), and whether `test_model`'s forward pass on
a random (1, 75, 100, 3) input completes without error. -/
structure RepairEnv where
  modelFileExists : Bool
  extractedWeights : Option (List (String × Tensor))
  smokeTestPasses : Bool

/-- `main()` of `fix_model.py`: returns `.ok true` exactly when the corrected
model file `model_fixed.h5` is written, `.ok false` when the run returns
early without saving, and `.error` when an exception escapes the rebuild. -/
def fixModelMain (env : RepairEnv) : Except Unit Bool :=
  if env.modelFileExists = false then .ok false
  else
    match env.extractedWeights with
    | none => .ok false
    | some w =>
      match rebuild_model_with_weights w with
      | .error e => .error e
      | .ok _ =>
        if env.smokeTestPasses then .ok true else .ok false

/- ------------------------------------------------------------------ -/
/-! ### `app.py`: label set, preprocessing, prediction, formatting -/

/-- `np.mean(x_test)` over the flattened pixel values (app.py line 70). -/
def pixelMean (l : List ℚ) : ℚ := l.sum / l.length

/-- The square of `np.std(x_test)` (app.py line 71): the population variance
of the flattened pixel values.  `np.std` is its square root, so
`np.std = 0 ↔ npVariance = 0`, and the per-pixel division
`(x - mean) / std` (line 72) is finite exactly when `npVariance ≠ 0`. -/
def npVariance (l : List ℚ) : ℚ :=
  (l.map fun x => (x - pixelMean l) ^ 2).sum / l.length

/-- Well-definedness of `preprocess_image`'s normalization step: the divisor
`np.std(x_test)` is nonzero, so the division produces finite values. -/
def preprocessDefined (l : List ℚ) : Prop := npVariance l ≠ 0

/-- `np.argmax` on a vector: the smallest index attaining the maximum. -/
def npArgmax : List ℚ → ℕ
  | [] => 0
  | p :: rest => if rest.all (fun q => q ≤ p) then 0 else npArgmax rest + 1

/-- `np.round` to an integer: round half to even (banker's rounding). -/
def npRound (q : ℚ) : ℤ :=
  if q - ⌊q⌋ < 1 / 2 then ⌊q⌋
  else if 1 / 2 < q - ⌊q⌋ then ⌊q⌋ + 1
  else if ⌊q⌋ % 2 = 0 then ⌊q⌋ else ⌊q⌋ + 1

/-- `np.round(v, 2)`: rounding to two decimal places. -/
def roundTo2 (v : ℚ) : ℚ := (npRound (v * 100) : ℚ) / 100

/-- `predict_skin_lesion` (app.py lines 107–136) after the model's forward
pass: the model output `predictions[0]` (a softmax vector) is scaled by 100
and rounded to two decimals — `np.round(predictions[0] * 100, 2).tolist()` —
and the predicted class is `np.argmax(predictions, axis=1)`. -/
def predict_skin_lesion (preds : List ℚ) : List ℚ × ℕ :=
  (preds.map fun p => roundTo2 (p * 100), npArgmax preds)

/-- Modelled from the spec: the Classifier Service's prediction result
(spec §4.2); its source file is not among the provided sources.  The result
carries the probability vector and a boolean `is_simulated` flag that
distinguishes the placeholder path from real inference. -/
structure PredictionOutcome where
  probs : List ℚ
  is_simulated : Bool
deriving DecidableEq, Repr

/-- Modelled from the spec: "When no trained model is available, a
uniformly-random distribution normalized to sum to one is substituted"
(spec §4.2).  The raw uniform random draws are a parameter; the service
normalizes them by their sum and marks the result as simulated. -/
def simulatedPrediction (raw : List ℚ) : PredictionOutcome :=
  { probs := raw.map fun x => x / raw.sum, is_simulated := true }

/-- Modelled from the spec: a real inference result of the Classifier
Service, marked as not simulated. -/
def realPrediction (probs : List ℚ) : PredictionOutcome :=
  { probs := probs, is_simulated := false }

/- ------------------------------------------------------------------ -/
/-! ### Helper lemmas: flat indexing -/

theorem listGetD_drop {α : Type} (l : List α) (n i : ℕ) (d : α) :
    (l.drop n).getD i d = l.getD (n + i) d := by
  induction l generalizing n with
  | nil => simp
  | cons a l ih =>
    cases n with
    | zero => simp
    | succ m =>
      simp only [List.drop, Nat.succ_add]
      exact ih m

theorem listGetD_take {α : Type} (l : List α) (n i : ℕ) (d : α)
    (h : i < n) : (l.take n).getD i d = l.getD i d := by
  induction l generalizing n i with
  | nil => simp
  | cons a l ih =>
    cases n with
    | zero => omega
    | succ m =>
      cases i with
      | zero => simp
      | succ j =>
        simpa [List.take] using ih m j (by omega)

theorem flatIdx_lt {shape idx : List ℕ}
    (h : List.Forall₂ (· < ·) idx shape) : flatIdx shape idx < shape.prod := by
  induction h with
  | nil => simp [flatIdx]
  | @cons i dd is ds hlt _ ih =>
    simp only [flatIdx, List.prod_cons]
    calc i * ds.prod + flatIdx ds is
        < i * ds.prod + ds.prod := by omega
      _ = (i + 1) * ds.prod := by ring
      _ ≤ dd * ds.prod := Nat.mul_le_mul_right _ (by omega)

/- ------------------------------------------------------------------ -/
/-! ### Helper lemmas: the injection loop -/

theorem setWeightsOk_iff {expected : List (List ℕ)} {ws : List Tensor} :
    setWeightsOk expected ws = true ↔ ws.map Tensor.shape = expected := by
  simp [setWeightsOk]

theorem tryKeys_ok_some_elim {expected : List (List ℕ)} {cand : String}
    {entries : List (String × Tensor)} {ws : List Tensor}
    (h : tryKeys expected cand entries = .ok (some ws)) :
    setWeightsOk expected ws = true ∧ ∃ t, ws = [t] := by
  induction entries with
  | nil => simp [tryKeys] at h
  | cons e rest ih =>
    obtain ⟨k, t⟩ := e
    by_cases h1 : strOccursIn cand (strLower k) = true
    · by_cases h2 : t.ndim = 5
      · by_cases h3 : setWeightsOk expected [conv3dTo2d t] = true
        · simp only [tryKeys, h1, if_true, h2, h3, if_true] at h
          obtain rfl : [conv3dTo2d t] = ws := by simpa using h
          exact ⟨h3, conv3dTo2d t, rfl⟩
        · simp only [tryKeys, h1, if_true, h2, if_true, h3, if_false] at h
          simp at h
      · by_cases h4 : t.ndim = 4
        · by_cases h5 : setWeightsOk expected [t] = true
          · simp only [tryKeys, h1, if_true, h2, if_false, h4, h5, if_true] at h
            obtain rfl : [t] = ws := by simpa using h
            exact ⟨h5, t, rfl⟩
          · simp only [tryKeys, h1, if_true, h2, if_false, h4, if_true, h5,
              if_false] at h
            exact ih h
        · simp only [tryKeys, h1, if_true, h2, h4, if_false] at h
          exact ih h
    · simp only [tryKeys, h1, if_false] at h
      exact ih h

theorem tryCandidates_ok_some_elim {expected : List (List ℕ)}
    {cands : List String} {entries : List (String × Tensor)} {ws : List Tensor}
    (h : tryCandidates expected cands entries = .ok (some ws)) :
    setWeightsOk expected ws = true ∧ ∃ t, ws = [t] := by
  induction cands with
  | nil => simp [tryCandidates] at h
  | cons c cs ih =>
    simp only [tryCandidates] at h
    revert h
    cases hk : tryKeys expected c entries with
    | error e => intro h; cases h
    | ok r =>
      cases r with
      | some ws' =>
        intro h
        obtain rfl : ws' = ws := by simpa using h
        exact tryKeys_ok_some_elim hk
      | none => exact ih

theorem rebuildModel_fst {entries : List (String × Tensor)} :
    ∀ {arch : List LayerSpec} {res : List (LayerSpec × Outcome)} {n : ℕ},
    rebuildModel arch entries = .ok (res, n) → res.map Prod.fst = arch := by
  intro arch
  induction arch with
  | nil =>
    intro res n h
    obtain ⟨rfl, rfl⟩ : ([] : List (LayerSpec × Outcome)) = res ∧ 0 = n := by
      simpa [rebuildModel] using h
    rfl
  | cons l rest ih =>
    intro res n h
    simp only [rebuildModel] at h
    revert h
    cases h1 : tryCandidates l.expectedShapes (candidatesFor l.name) entries with
    | error e => intro h; cases h
    | ok r =>
      cases h2 : rebuildModel rest entries with
      | error e => intro h; cases h
      | ok p =>
        obtain ⟨res', n'⟩ := p
        cases r with
        | some ws =>
          intro h
          obtain ⟨rfl, rfl⟩ : (l, Outcome.injected ws) :: res' = res ∧ n' + 1 = n := by
            simpa using h
          simpa using ih h2
        | none =>
          intro h
          obtain ⟨rfl, rfl⟩ : (l, Outcome.notFound) :: res' = res ∧ n' = n := by
            simpa using h
          simpa using ih h2

theorem rebuildModel_count {entries : List (String × Tensor)} :
    ∀ {arch : List LayerSpec} {res : List (LayerSpec × Outcome)} {n : ℕ},
    rebuildModel arch entries = .ok (res, n) → n = countInjected res := by
  intro arch
  induction arch with
  | nil =>
    intro res n h
    obtain ⟨rfl, rfl⟩ : ([] : List (LayerSpec × Outcome)) = res ∧ 0 = n := by
      simpa [rebuildModel] using h
    rfl
  | cons l rest ih =>
    intro res n h
    simp only [rebuildModel] at h
    revert h
    cases h1 : tryCandidates l.expectedShapes (candidatesFor l.name) entries with
    | error e => intro h; cases h
    | ok r =>
      cases h2 : rebuildModel rest entries with
      | error e => intro h; cases h
      | ok p =>
        obtain ⟨res', n'⟩ := p
        cases r with
        | some ws =>
          intro h
          obtain ⟨rfl, rfl⟩ : (l, Outcome.injected ws) :: res' = res ∧ n' + 1 = n := by
            simpa using h
          have hn := ih h2
          unfold countInjected at hn ⊢
          rw [List.countP_cons_of_pos _ _ (by rfl)]
          omega
        | none =>
          intro h
          obtain ⟨rfl, rfl⟩ : (l, Outcome.notFound) :: res' = res ∧ n' = n := by
            simpa using h
          have hn := ih h2
          unfold countInjected at hn ⊢
          rw [List.countP_cons_of_neg _ _ (by simp)]
          omega

theorem rebuildModel_mem {entries : List (String × Tensor)} :
    ∀ {arch : List LayerSpec} {res : List (LayerSpec × Outcome)} {n : ℕ}
      {l : LayerSpec} {o : Outcome},
    rebuildModel arch entries = .ok (res, n) → (l, o) ∈ res →
    (∃ ws, tryCandidates l.expectedShapes (candidatesFor l.name) entries
        = .ok (some ws) ∧ o = Outcome.injected ws)
    ∨ (tryCandidates l.expectedShapes (candidatesFor l.name) entries = .ok none
        ∧ o = Outcome.notFound) := by
  intro arch
  induction arch with
  | nil =>
    intro res n l o h hm
    obtain ⟨rfl, rfl⟩ : ([] : List (LayerSpec × Outcome)) = res ∧ 0 = n := by
      simpa [rebuildModel] using h
    simp at hm
  | cons a rest ih =>
    intro res n l o h hm
    simp only [rebuildModel] at h
    revert h
    cases h1 : tryCandidates a.expectedShapes (candidatesFor a.name) entries with
    | error e => intro h; cases h
    | ok r =>
      cases h2 : rebuildModel rest entries with
      | error e => intro h; cases h
      | ok p =>
        obtain ⟨res', n'⟩ := p
        cases r with
        | some ws =>
          intro h
          obtain ⟨rfl, rfl⟩ : (a, Outcome.injected ws) :: res' = res ∧ n' + 1 = n := by
            simpa using h
          rcases List.mem_cons.mp hm with hhead | htail
          · obtain ⟨rfl, rfl⟩ : l = a ∧ o = Outcome.injected ws := by
              simpa using hhead
            exact Or.inl ⟨ws, h1, rfl⟩
          · exact ih h2 htail
        | none =>
          intro h
          obtain ⟨rfl, rfl⟩ : (a, Outcome.notFound) :: res' = res ∧ n' = n := by
            simpa using h
          rcases List.mem_cons.mp hm with hhead | htail
          · obtain ⟨rfl, rfl⟩ : l = a ∧ o = Outcome.notFound := by
              simpa using hhead
            exact Or.inr ⟨h1, rfl⟩
          · exact ih h2 htail

theorem tryKeys_ok_none_of_noMatch {expected : List (List ℕ)} {cand : String}
    {entries : List (String × Tensor)}
    (h : ∀ k t, (k, t) ∈ entries → strOccursIn cand (strLower k) = true →
      t.ndim ≠ 5 ∧ (t.ndim = 4 → setWeightsOk expected [t] = false)) :
    tryKeys expected cand entries = .ok none := by
  induction entries with
  | nil => rfl
  | cons e rest ih =>
    obtain ⟨k, t⟩ := e
    have hrest : tryKeys expected cand rest = .ok none :=
      ih fun k' t' hm => h k' t' (List.mem_cons_of_mem _ hm)
    by_cases h1 : strOccursIn cand (strLower k) = true
    · obtain ⟨h5, h4⟩ := h k t (List.mem_cons_self _ _) h1
      by_cases hk4 : t.ndim = 4
      · simp only [tryKeys, h1, if_true, h5, hk4, if_false, if_true,
          h4 hk4, Bool.false_eq_true]
        exact hrest
      · simp only [tryKeys, h1, if_true, h5, hk4, if_false]
        exact hrest
    · simp only [tryKeys, h1, if_false]
      exact hrest

theorem tryCandidates_ok_none_of_noMatch {expected : List (List ℕ)}
    {cands : List String} {entries : List (String × Tensor)}
    (h : ∀ c, c ∈ cands → ∀ k t, (k, t) ∈ entries →
      strOccursIn c (strLower k) = true →
      t.ndim ≠ 5 ∧ (t.ndim = 4 → setWeightsOk expected [t] = false)) :
    tryCandidates expected cands entries = .ok none := by
  induction cands with
  | nil => rfl
  | cons c cs ih =>
    have hc : tryKeys expected c entries = .ok none :=
      tryKeys_ok_none_of_noMatch (h c (List.mem_cons_self _ _))
    simp only [tryCandidates, hc]
    exact ih fun c' hm => h c' (List.mem_cons_of_mem _ hm)

/-- Whether a Keras layer kind owns a (kernel, bias) weight pair. -/
def hasKernelBias : LayerKind → Bool
  | LayerKind.conv2D _ _ _ _ _ => true
  | LayerKind.dense _ _ => true
  | _ => false

/- ------------------------------------------------------------------ -/
/-! ### Claims about the repair utility -/

/-- Claim C1: for an extracted 5-dimensional weight tensor of shape
(3, h, w, in, out), the dimensional-conversion step produces a 4-dimensional
tensor of shape (h, w, in, out) every entry of which is the input's entry at
the middle depth index 1, and when such a tensor matches a layer the list
passed to that layer's `set_weights` is exactly `[converted]`, i.e. the
middle-depth slice is the injected tensor. -/
theorem C1_conv3d_middle_slice
    (t : Tensor) (h w ci co i j k l : ℕ)
    (expected : List (List ℕ)) (cand key : String)
    (rest : List (String × Tensor))
    (hshape : t.shape = [3, h, w, ci, co])
    (hi : i < h) (hj : j < w) (hk : k < ci) (hl : l < co)
    (hocc : strOccursIn cand (strLower key) = true)
    (hok : setWeightsOk expected [conv3dTo2d t] = true) :
    (conv3dTo2d t).shape = [h, w, ci, co]
    ∧ (conv3dTo2d t).get [i, j, k, l] = t.get [1, i, j, k, l]
    ∧ tryKeys expected cand ((key, t) :: rest)
        = .ok (some [conv3dTo2d t]) := by
  have htail : t.shape.tail = [h, w, ci, co] := by rw [hshape]; rfl
  refine ⟨by simp [conv3dTo2d, npIndex0, htail], ?_, ?_⟩
  · have hlt : flatIdx [h, w, ci, co] [i, j, k, l] < [h, w, ci, co].prod :=
      flatIdx_lt (List.Forall₂.cons hi (List.Forall₂.cons hj
        (List.Forall₂.cons hk (List.Forall₂.cons hl List.Forall₂.nil))))
    simp only [Tensor.get, conv3dTo2d, npIndex0, htail, hshape, List.tail_cons]
    rw [listGetD_take _ _ _ _ hlt, listGetD_drop]
    simp [flatIdx]
  · have h5 : t.ndim = 5 := by simp [Tensor.ndim, hshape]
    simp [tryKeys, hocc, h5, hok]

/-- Claim C1 witness: a concrete (3,1,1,1,1) tensor, its middle slice, and
its injection. -/
theorem C1_conv3d_middle_slice_witness :
    (conv3dTo2d ⟨[3, 1, 1, 1, 1], [10, 20, 30]⟩).shape = [1, 1, 1, 1]
    ∧ (conv3dTo2d ⟨[3, 1, 1, 1, 1], [10, 20, 30]⟩).get [0, 0, 0, 0]
        = Tensor.get ⟨[3, 1, 1, 1, 1], [10, 20, 30]⟩ [1, 0, 0, 0, 0]
    ∧ tryKeys [[1, 1, 1, 1]] "conv3d"
        [("conv3d/kernel", ⟨[3, 1, 1, 1, 1], [10, 20, 30]⟩)]
        = .ok (some [conv3dTo2d ⟨[3, 1, 1, 1, 1], [10, 20, 30]⟩]) :=
  C1_conv3d_middle_slice ⟨[3, 1, 1, 1, 1], [10, 20, 30]⟩ 1 1 1 1 0 0 0 0
    [[1, 1, 1, 1]] "conv3d" "conv3d/kernel" [] rfl (by decide) (by decide)
    (by decide) (by decide) (by decide) (by decide)

/-- Claim C2 counterexample: the extracted dictionary holds a single tensor
named `conv3d/kernel` of shape (3,1,1,1,1); it name-matches layer
`conv2d_1` (candidate fragment `conv3d`), and its converted slice is
shape-incompatible with the layer.  The claim says such a layer is left at
its random weights and counted "not found"; instead the unguarded
`set_weights` call of the 5-D branch raises and the whole run aborts, so no
run summary exists at all. -/
theorem C2_counterexample_abort :
    ("conv3d" ∈ candidatesFor "conv2d_1"
      ∧ strOccursIn "conv3d" (strLower "conv3d/kernel") = true
      ∧ setWeightsOk [[3, 3, 3, 32], [32]]
          [conv3dTo2d ⟨[3, 1, 1, 1, 1], [1, 2, 3]⟩] = false)
    ∧ rebuild_model_with_weights
        [("conv3d/kernel", ⟨[3, 1, 1, 1, 1], [1, 2, 3]⟩)]
        = Except.error () := by
  exact ⟨⟨by decide, by decide, by decide⟩, rfl⟩

/-- Claim C2 (amended): in a repair run that completes, every layer none of
whose name-matching tensors is injectable — no matching tensor is
5-dimensional, and every matching 4-dimensional tensor is rejected as
shape-incompatible — is reported as "not found" (never as injected), and
the run's injected counter counts exactly the injected layers.  (A matching
5-dimensional tensor whose converted slice is shape-incompatible instead
aborts the whole run: the 5-D branch's `set_weights` has no exception
handler, as the counterexample shows.) -/
theorem C2_not_found_kept_random
    (entries : List (String × Tensor)) (res : List (LayerSpec × Outcome))
    (n : ℕ) (l : LayerSpec) (o : Outcome)
    (hrun : rebuild_model_with_weights entries = .ok (res, n))
    (hmem : (l, o) ∈ res)
    (hno : ∀ c, c ∈ candidatesFor l.name → ∀ k t, (k, t) ∈ entries →
      strOccursIn c (strLower k) = true →
      t.ndim ≠ 5 ∧ (t.ndim = 4 → setWeightsOk l.expectedShapes [t] = false)) :
    o = Outcome.notFound ∧ n = countInjected res := by
  have hrun' : rebuildModel modelLayers entries = .ok (res, n) := hrun
  have hnone := tryCandidates_ok_none_of_noMatch hno
  rcases rebuildModel_mem hrun' hmem with ⟨ws, hws, _⟩ | ⟨_, ho⟩
  · rw [hws] at hnone
    cases hnone
  · exact ⟨ho, rebuildModel_count hrun'⟩

/-- Claim C2 witness: the empty extracted dictionary; the flatten layer has
no matching tensor and is reported "not found" in a run that injects
nothing. -/
theorem C2_not_found_kept_random_witness :
    Outcome.notFound = Outcome.notFound
    ∧ 0 = countInjected (modelLayers.map fun a => (a, Outcome.notFound)) :=
  C2_not_found_kept_random [] (modelLayers.map fun a => (a, Outcome.notFound))
    0 ⟨"flatten", LayerKind.flatten, []⟩ Outcome.notFound rfl (by decide)
    (fun c _ k t hkt _ => absurd hkt (List.not_mem_nil _))

/-- Claim C3: the matching step consults each layer's legacy-name candidates
in the fixed order of the static table (whose rows are listed), stops at the
first match that injects — once a candidate injects, later candidates are
never consulted, and within a candidate the first shape-compatible 4-D match
is taken — and any successfully injected array list is shape-compatible
with the layer (`set_weights` rejects incompatible shapes). -/
theorem C3_fixed_order_first_match :
    (∀ expected cands entries ws,
        tryCandidates expected cands entries = .ok (some ws) →
        setWeightsOk expected ws = true)
    ∧ (∀ expected (c : String) cs entries ws,
        tryKeys expected c entries = .ok (some ws) →
        tryCandidates expected (c :: cs) entries = .ok (some ws))
    ∧ (∀ expected cand key t rest,
        strOccursIn cand (strLower key) = true → t.ndim = 4 →
        setWeightsOk expected [t] = true →
        tryKeys expected cand ((key, t) :: rest) = .ok (some [t]))
    ∧ candidatesFor "conv2d_1" = ["conv3d", "conv3d_1", "conv3d_2"]
    ∧ candidatesFor "conv2d_2" = ["conv3d_3", "conv3d_4"]
    ∧ candidatesFor "conv2d_3" = ["conv3d_5", "conv3d_6"]
    ∧ candidatesFor "dense_1" = ["dense", "dense_1", "dense_2"]
    ∧ candidatesFor "dense_2" = ["dense_3", "dense_4"]
    ∧ candidatesFor "output" = ["dense_5", "dense_6", "output"]
    ∧ candidatesFor "max_pool_1" = ["max_pool_1"] := by
  refine ⟨?_, ?_, ?_, rfl, rfl, rfl, rfl, rfl, rfl, rfl⟩
  · intro expected cands entries ws h
    exact (tryCandidates_ok_some_elim h).1
  · intro expected c cs entries ws h
    simp [tryCandidates, h]
  · intro expected cand key t rest hocc h4 hok
    have h5 : t.ndim ≠ 5 := by omega
    simp [tryKeys, hocc, h5, h4, hok]

/-- Claim C3 witness: a candidate injects a compatible 4-D tensor from the
first matching key; the next candidate is never consulted. -/
theorem C3_fixed_order_first_match_witness :
    setWeightsOk [[2, 2, 1, 1]] [⟨[2, 2, 1, 1], [1, 2, 3, 4]⟩] = true
    ∧ tryCandidates [[2, 2, 1, 1]] ["dense", "dense_3"]
        [("dense_1/kernel", ⟨[2, 2, 1, 1], [1, 2, 3, 4]⟩)]
        = .ok (some [⟨[2, 2, 1, 1], [1, 2, 3, 4]⟩])
    ∧ tryKeys [[2, 2, 1, 1]] "dense"
        [("dense_1/kernel", ⟨[2, 2, 1, 1], [1, 2, 3, 4]⟩)]
        = .ok (some [⟨[2, 2, 1, 1], [1, 2, 3, 4]⟩])
    ∧ candidatesFor "dense_1" = ["dense", "dense_1", "dense_2"] :=
  ⟨C3_fixed_order_first_match.1 [[2, 2, 1, 1]] ["dense", "dense_3"]
      [("dense_1/kernel", ⟨[2, 2, 1, 1], [1, 2, 3, 4]⟩)] _ rfl,
    C3_fixed_order_first_match.2.1 [[2, 2, 1, 1]] "dense" ["dense_3"]
      [("dense_1/kernel", ⟨[2, 2, 1, 1], [1, 2, 3, 4]⟩)] _ rfl,
    C3_fixed_order_first_match.2.2.1 [[2, 2, 1, 1]] "dense" "dense_1/kernel"
      ⟨[2, 2, 1, 1], [1, 2, 3, 4]⟩ [] (by decide) (by decide) (by decide),
    C3_fixed_order_first_match.2.2.2.2.2.2.1⟩

/-- Claim C4: the repair utility writes its only persisted artifact,
`model_fixed.h5`, if and only if the source model file exists, weight
extraction succeeds, the injection loop completes without an exception, and
the post-injection smoke test passes; on every failure path the run stops
without persisting output. -/
theorem C4_save_iff_all_steps_succeed (env : RepairEnv) :
    fixModelMain env = .ok true ↔
      (env.modelFileExists = true
        ∧ ∃ w r, env.extractedWeights = some w
            ∧ rebuild_model_with_weights w = .ok r
            ∧ env.smokeTestPasses = true) := by
  obtain ⟨fe, ew, st⟩ := env
  cases fe
  · simp [fixModelMain]
  · cases ew with
    | none => simp [fixModelMain]
    | some w =>
      cases hr : rebuild_model_with_weights w with
      | error e =>
        simp only [fixModelMain]
        constructor
        · intro h
          rw [hr] at h
          cases h
        · rintro ⟨-, w', r, hw, hr', -⟩
          obtain rfl : w = w' := by simpa using hw
          rw [hr] at hr'
          cases hr'
      | ok p =>
        cases st
        · simp only [fixModelMain]
          rw [hr]
          constructor
          · intro h
            simp at h
          · rintro ⟨-, w', r, hw, hr', hst⟩
            cases hst
        · simp only [fixModelMain]
          rw [hr]
          exact ⟨fun _ => ⟨by simp, w, p, rfl, hr, by simp⟩, fun _ => by simp⟩

/-- Claim C4 witness: with the source file present, extraction returning an
empty dictionary, and a passing smoke test, the file is saved; the
equivalence holds at this concrete environment. -/
theorem C4_save_iff_all_steps_succeed_witness :
    fixModelMain ⟨true, some [], true⟩ = .ok true ↔
      ((true : Bool) = true
        ∧ ∃ w r, (some [] : Option (List (String × Tensor))) = some w
            ∧ rebuild_model_with_weights w = .ok r
            ∧ (true : Bool) = true) :=
  C4_save_iff_all_steps_succeed ⟨true, some [], true⟩

/-- Claim C6: whatever the extracted weight dictionary contains, a completed
repair run's reconstructed model is exactly the fixed architecture — in
order: three 2-D convolution + max-pooling pairs (32, 64, 128 filters), a
flatten layer, Dense 256 with Dropout 0.5, Dense 128 with Dropout 0.3, and
a final 7-way softmax layer — independent of the corrupted file's declared
architecture. -/
theorem C6_architecture_fixed (entries : List (String × Tensor))
    (res : List (LayerSpec × Outcome)) (n : ℕ)
    (hrun : rebuild_model_with_weights entries = .ok (res, n)) :
    res.map Prod.fst = modelLayers
    ∧ modelLayers.map LayerSpec.kind =
      [LayerKind.conv2D 32 3 3 "relu" "same", LayerKind.maxPooling2D 2 2,
       LayerKind.conv2D 64 3 3 "relu" "same", LayerKind.maxPooling2D 2 2,
       LayerKind.conv2D 128 3 3 "relu" "same", LayerKind.maxPooling2D 2 2,
       LayerKind.flatten,
       LayerKind.dense 256 "relu", LayerKind.dropout (1 / 2),
       LayerKind.dense 128 "relu", LayerKind.dropout (3 / 10),
       LayerKind.dense 7 "softmax"] :=
  ⟨rebuildModel_fst hrun, rfl⟩

/-- Claim C6 witness: the run on the empty extracted dictionary. -/
theorem C6_architecture_fixed_witness :
    ((modelLayers.map fun a => (a, Outcome.notFound)).map Prod.fst
        = modelLayers)
    ∧ modelLayers.map LayerSpec.kind =
      [LayerKind.conv2D 32 3 3 "relu" "same", LayerKind.maxPooling2D 2 2,
       LayerKind.conv2D 64 3 3 "relu" "same", LayerKind.maxPooling2D 2 2,
       LayerKind.conv2D 128 3 3 "relu" "same", LayerKind.maxPooling2D 2 2,
       LayerKind.flatten,
       LayerKind.dense 256 "relu", LayerKind.dropout (1 / 2),
       LayerKind.dense 128 "relu", LayerKind.dropout (3 / 10),
       LayerKind.dense 7 "softmax"] :=
  C6_architecture_fixed [] (modelLayers.map fun a => (a, Outcome.notFound))
    0 rfl

/-- Claim C10: every `set_weights` call of the injection loop passes exactly
one tensor: any successful injection supplies a singleton array list, and
the 5-D branch's failing call likewise supplied only the converted slice.
Every convolution/dense layer of the reconstructed model owns a
(kernel, bias) pair — two weight arrays — so the single supplied array is
only one of the two required ones, biases are never restored, and in fact
no layer of the reconstructed model ever accepts an injection: a completed
run reports every layer "not found". -/
theorem C10_single_tensor_never_bias :
    (∀ expected cands entries ws,
        tryCandidates expected cands entries = .ok (some ws) → ∃ t, ws = [t])
    ∧ (∀ l, l ∈ modelLayers → hasKernelBias l.kind = true →
        l.expectedShapes.length = 2)
    ∧ (∀ entries res n l o, rebuild_model_with_weights entries = .ok (res, n) →
        (l, o) ∈ res → o = Outcome.notFound) := by
  refine ⟨?_, by decide, ?_⟩
  · intro expected cands entries ws h
    exact (tryCandidates_ok_some_elim h).2
  · intro entries res n l o hrun hmem
    have hrun' : rebuildModel modelLayers entries = .ok (res, n) := hrun
    rcases rebuildModel_mem hrun' hmem with ⟨ws, hws, rfl⟩ | ⟨-, ho⟩
    · obtain ⟨hcompat, t, rfl⟩ := tryCandidates_ok_some_elim hws
      have hexp : l.expectedShapes = [t.shape] :=
        (setWeightsOk_iff.mp hcompat).symm
      have hmemL : l ∈ modelLayers := by
        have := rebuildModel_fst hrun'
        rw [← this]
        exact List.mem_map_of_mem Prod.fst hmem
      have hlen : l.expectedShapes.length ≠ 1 := by
        revert hmemL
        have : ∀ l', l' ∈ modelLayers → l'.expectedShapes.length ≠ 1 := by
          decide
        exact this l
      rw [hexp] at hlen
      simp at hlen
    · exact ho

/-- Claim C10 witness: a successful injection (into an artificial layer
expecting a lone kernel) passes a singleton list; the first convolution
layer of the real model expects two arrays; and on a run over a dictionary
holding one 4-D tensor every real layer ends up "not found". -/
theorem C10_single_tensor_never_bias_witness :
    (∃ t, [conv3dTo2d ⟨[3, 2, 1, 1, 1], [5, 6, 7, 8, 9, 10]⟩] = [t])
    ∧ (⟨"conv2d_1", LayerKind.conv2D 32 3 3 "relu" "same",
        [[3, 3, 3, 32], [32]]⟩ : LayerSpec).expectedShapes.length = 2
    ∧ Outcome.notFound = Outcome.notFound :=
  ⟨C10_single_tensor_never_bias.1 [[2, 1, 1, 1]] ["conv3d"]
      [("conv3d_1/kernel", ⟨[3, 2, 1, 1, 1], [5, 6, 7, 8, 9, 10]⟩)] _ rfl,
    C10_single_tensor_never_bias.2.1
      ⟨"conv2d_1", LayerKind.conv2D 32 3 3 "relu" "same",
        [[3, 3, 3, 32], [32]]⟩ (by decide) rfl,
    C10_single_tensor_never_bias.2.2
      [("dense_1/kernel", ⟨[9, 9, 9, 9], []⟩)]
      (modelLayers.map fun a => (a, Outcome.notFound)) 0
      ⟨"conv2d_1", LayerKind.conv2D 32 3 3 "relu" "same",
        [[3, 3, 3, 32], [32]]⟩ Outcome.notFound rfl (by decide)⟩

/- ------------------------------------------------------------------ -/
/-! ### Helper lemmas: result formatting -/

theorem npArgmax_cons (p : ℚ) (rest : List ℚ) :
    npArgmax (p :: rest)
      = if (rest.all fun x => decide (x ≤ p)) = true then 0
        else npArgmax rest + 1 := rfl

theorem npArgmax_lt_length : ∀ l : List ℚ, l ≠ [] → npArgmax l < l.length := by
  intro l
  induction l with
  | nil => intro h; cases h rfl
  | cons p rest ih =>
    intro _
    by_cases hall : (rest.all fun x => decide (x ≤ p)) = true
    · simp [npArgmax, hall]
    · have hne : rest ≠ [] := by
        intro h
        rw [h] at hall
        exact hall rfl
      simp only [npArgmax, hall, if_false, List.length_cons]
      exact Nat.succ_lt_succ (ih hne)

theorem npRound_abs_le (q : ℚ) : |(npRound q : ℚ) - q| ≤ 1 / 2 := by
  have h1 : (⌊q⌋ : ℚ) ≤ q := Int.floor_le q
  have h2 : q < ⌊q⌋ + 1 := Int.lt_floor_add_one q
  unfold npRound
  split_ifs with ha hb hc
  · rw [abs_le]
    constructor <;> linarith
  · rw [abs_le]
    push_cast
    constructor <;> linarith
  · rw [abs_le]
    constructor <;> linarith
  · rw [abs_le]
    push_cast
    constructor <;> linarith

theorem roundTo2_abs_le (v : ℚ) : |roundTo2 v - v| ≤ 1 / 200 := by
  have h := npRound_abs_le (v * 100)
  have heq : roundTo2 v - v = ((npRound (v * 100) : ℚ) - v * 100) / 100 := by
    unfold roundTo2
    ring
  rw [heq, abs_div, abs_of_pos (by norm_num : (0 : ℚ) < 100)]
  linarith

theorem predictProbs_sum_bound : ∀ l : List ℚ,
    |(l.map fun p => roundTo2 (p * 100)).sum - 100 * l.sum|
      ≤ l.length * (1 / 200) := by
  intro l
  induction l with
  | nil => simp
  | cons p rest ih =>
    simp only [List.map_cons, List.sum_cons, List.length_cons]
    have h1 := roundTo2_abs_le (p * 100)
    calc |roundTo2 (p * 100) + (rest.map fun p => roundTo2 (p * 100)).sum
            - 100 * (p + rest.sum)|
        = |(roundTo2 (p * 100) - p * 100)
            + ((rest.map fun p => roundTo2 (p * 100)).sum - 100 * rest.sum)| := by
          congr 1
          ring
      _ ≤ |roundTo2 (p * 100) - p * 100|
            + |(rest.map fun p => roundTo2 (p * 100)).sum - 100 * rest.sum| :=
          abs_add _ _
      _ ≤ 1 / 200 + rest.length * (1 / 200) := add_le_add h1 ih
      _ = (rest.length + 1) * (1 / 200) := by ring
      _ = ((rest.length + 1 : ℕ) : ℚ) * (1 / 200) := by push_cast; ring

/-- Claim C8 counterexample: for the softmax output (1,0,0,0,0,0,0) the list
returned to the caller is [100, 0, 0, 0, 0, 0, 0] — percentages — whose sum
is 100, not approximately 1.0. -/
theorem C8_counterexample_sum_is_100 :
    (predict_skin_lesion [1, 0, 0, 0, 0, 0, 0]).1 = [100, 0, 0, 0, 0, 0, 0]
    ∧ (predict_skin_lesion [1, 0, 0, 0, 0, 0, 0]).1.sum = 100
    ∧ ¬(|(predict_skin_lesion [1, 0, 0, 0, 0, 0, 0]).1.sum - 1| ≤ 1 / 10) := by
  have h1 : roundTo2 (100 : ℚ) = 100 := by
    norm_num [roundTo2, npRound]
  have h0 : roundTo2 (0 : ℚ) = 0 := by
    norm_num [roundTo2, npRound]
  have hl : (predict_skin_lesion [1, 0, 0, 0, 0, 0, 0]).1
      = [100, 0, 0, 0, 0, 0, 0] := by
    simp [predict_skin_lesion, h1, h0]
  refine ⟨hl, ?_, ?_⟩
  · rw [hl]
    norm_num
  · rw [hl]
    norm_num

/-- Claim C8 (amended): for every 7-entry softmax vector (summing to one),
the prediction result returned to the caller has exactly one entry per
label and its values are percentages: they sum to approximately 100 —
within the accumulated two-decimal rounding tolerance 7/200 — not to
approximately 1.0. -/
theorem C8_percent_sum (preds : List ℚ) (h7 : preds.length = 7)
    (hsum : preds.sum = 1) :
    (predict_skin_lesion preds).1.length = 7
    ∧ |(predict_skin_lesion preds).1.sum - 100| ≤ 7 / 200 := by
  constructor
  · simp [predict_skin_lesion, h7]
  · have h := predictProbs_sum_bound preds
    rw [hsum, h7] at h
    simp only [predict_skin_lesion]
    calc |(preds.map fun p => roundTo2 (p * 100)).sum - 100|
        = |(preds.map fun p => roundTo2 (p * 100)).sum - 100 * 1| := by
          norm_num
      _ ≤ (7 : ℕ) * (1 / 200) := h
      _ = 7 / 200 := by push_cast; ring

/-- Claim C8 witness: the corrected bound at the softmax vector
(1,0,0,0,0,0,0). -/
theorem C8_percent_sum_witness :
    (predict_skin_lesion [1, 0, 0, 0, 0, 0, 0]).1.length = 7
    ∧ |(predict_skin_lesion [1, 0, 0, 0, 0, 0, 0]).1.sum - 100| ≤ 7 / 200 :=
  C8_percent_sum [1, 0, 0, 0, 0, 0, 0] (by simp) (by simp)

/- ------------------------------------------------------------------ -/
/-! ### Helper lemmas: variance and normalization -/

theorem sum_zero_of_nonneg {l : List ℚ} (hn : ∀ x ∈ l, 0 ≤ x)
    (h : l.sum = 0) : ∀ x ∈ l, x = 0 := by
  induction l with
  | nil => simp
  | cons a rest ih =>
    have ha : 0 ≤ a := hn a (List.mem_cons_self _ _)
    have hr : ∀ y ∈ rest, 0 ≤ y := fun y hy => hn y (List.mem_cons_of_mem _ hy)
    have hs : 0 ≤ rest.sum := List.sum_nonneg hr
    simp only [List.sum_cons] at h
    have ha0 : a = 0 := by linarith
    have hr0 : rest.sum = 0 := by linarith
    intro x hx
    rcases List.mem_cons.mp hx with rfl | hxr
    · exact ha0
    · exact ih hr hr0 x hxr

theorem npVariance_zero_iff (l : List ℚ) (hne : l ≠ []) :
    npVariance l = 0 ↔ ∀ x ∈ l, ∀ y ∈ l, x = y := by
  have hlen : (l.length : ℚ) ≠ 0 :=
    Nat.cast_ne_zero.mpr (Nat.pos_iff_ne_zero.mp (List.length_pos.mpr hne))
  constructor
  · intro h
    have hsq : (l.map fun x => (x - pixelMean l) ^ 2).sum = 0 := by
      unfold npVariance at h
      rcases div_eq_zero_iff.mp h with h' | h'
      · exact h'
      · exact absurd h' hlen
    have hz := sum_zero_of_nonneg
      (fun x hx => by
        obtain ⟨y, -, rfl⟩ := List.mem_map.mp hx
        positivity) hsq
    have hm : ∀ x ∈ l, x = pixelMean l := by
      intro x hx
      have h0 := hz ((x - pixelMean l) ^ 2) (List.mem_map_of_mem _ hx)
      have := pow_eq_zero_iff (n := 2) (by norm_num) |>.mp h0
      linarith [this]
    intro x hx y hy
    rw [hm x hx, hm y hy]
  · intro h
    obtain ⟨a, l', rfl⟩ : ∃ a l', l = a :: l' := by
      cases l with
      | nil => exact absurd rfl hne
      | cons a l' => exact ⟨a, l', rfl⟩
    have hall : ∀ x ∈ a :: l', x = a :=
      fun x hx => h x hx a (List.mem_cons_self _ _)
    have hmean : pixelMean (a :: l') = a := by
      unfold pixelMean
      rw [List.sum_eq_card_nsmul _ a hall]
      simp only [nsmul_eq_mul]
      field_simp
    unfold npVariance
    rw [List.sum_eq_zero, zero_div]
    intro x hx
    obtain ⟨y, hy, rfl⟩ := List.mem_map.mp hx
    rw [hall y hy, hmean]
    ring

theorem sum_map_div (l : List ℚ) (s : ℚ) :
    (l.map fun x => x / s).sum = l.sum / s := by
  induction l with
  | nil => simp
  | cons a rest ih => simp [ih, add_div]

/- ------------------------------------------------------------------ -/
/-! ### Claims C9 and C5 -/

/-- Claim C9: the preprocessor divides every pixel by `np.std` with no zero
guard, and the standard deviation (whose square is `npVariance`) is zero
exactly for a constant-colour image; hence for any constant image of the
22500 channel values the divisor is zero (the division is not finite), and
the returned normalized tensor is well defined only when the image has at
least two distinct pixel values. -/
theorem C9_constant_image_zero_std (l : List ℚ) (c : ℚ)
    (hlen : l.length = 75 * 100 * 3) :
    ((∀ x ∈ l, x = c) → npVariance l = 0)
    ∧ (preprocessDefined l → ∃ x, x ∈ l ∧ ∃ y, y ∈ l ∧ x ≠ y) := by
  have hne : l ≠ [] := by
    intro h
    rw [h] at hlen
    simp at hlen
  constructor
  · intro h
    exact (npVariance_zero_iff l hne).mpr
      (fun x hx y hy => (h x hx).trans (h y hy).symm)
  · intro hdef
    by_contra hcon
    push_neg at hcon
    exact hdef ((npVariance_zero_iff l hne).mpr
      (fun x hx y hy => hcon x hx y hy))

/-- Claim C9 witness: the constant image with all 22500 channel values 5 has
zero variance (zero standard deviation). -/
theorem C9_constant_image_zero_std_witness :
    ((∀ x ∈ List.replicate 22500 (5 : ℚ), x = 5)
        → npVariance (List.replicate 22500 (5 : ℚ)) = 0)
    ∧ (preprocessDefined (List.replicate 22500 (5 : ℚ))
        → ∃ x, x ∈ List.replicate 22500 (5 : ℚ)
            ∧ ∃ y, y ∈ List.replicate 22500 (5 : ℚ) ∧ x ≠ y) :=
  C9_constant_image_zero_std (List.replicate 22500 (5 : ℚ)) 5
    (by simp only [List.length_replicate])

/-- Claim C5 (spec-modelled): when no trained model is available, the
classifier service substitutes a normalized random distribution: it has one
entry per raw draw, sums to one, and is marked `is_simulated`, which
distinguishes it from every real inference result. -/
theorem C5_simulated_normalized_flagged (raw probs : List ℚ)
    (hne : raw ≠ []) (hpos : ∀ x ∈ raw, 0 < x) :
    (simulatedPrediction raw).probs.sum = 1
    ∧ (simulatedPrediction raw).probs.length = raw.length
    ∧ (simulatedPrediction raw).is_simulated = true
    ∧ (simulatedPrediction raw).is_simulated
        ≠ (realPrediction probs).is_simulated := by
  have hS : 0 < raw.sum := List.sum_pos raw hpos hne
  refine ⟨?_, by simp [simulatedPrediction], rfl,
    by simp [simulatedPrediction, realPrediction]⟩
  simp only [simulatedPrediction]
  rw [sum_map_div]
  exact div_self (ne_of_gt hS)

/-- Claim C5 witness: seven uniform draws of 1 normalize to a distribution
summing to one, flagged as simulated. -/
theorem C5_simulated_normalized_flagged_witness :
    (simulatedPrediction [1, 1, 1, 1, 1, 1, 1]).probs.sum = 1
    ∧ (simulatedPrediction [1, 1, 1, 1, 1, 1, 1]).probs.length
        = ([1, 1, 1, 1, 1, 1, 1] : List ℚ).length
    ∧ (simulatedPrediction [1, 1, 1, 1, 1, 1, 1]).is_simulated = true
    ∧ (simulatedPrediction [1, 1, 1, 1, 1, 1, 1]).is_simulated
        ≠ (realPrediction [1, 0, 0, 0, 0, 0, 0]).is_simulated :=
  C5_simulated_normalized_flagged [1, 1, 1, 1, 1, 1, 1] [1, 0, 0, 0, 0, 0, 0]
    (by simp) (by decide)
